import Mathlib

/-!
Verification of the Aladin.co.kr Calibre metadata-source plugin.

This file gives a shallow embedding, in Lean 4, of the scraping and
orchestration logic of the plugin (`__init__.py` and `worker.py`) and proves
or refutes the behavioural claims about it.

Modelling conventions:
 * HTML documents are represented by the values the code actually reads out
   of them via XPath (text contents of selected nodes, attribute values),
   passed as explicit inputs to the embedded functions.
 * Python exceptions are `Except Unit`; a `try/except` around a call becomes
   a `match` on the `Except` value.
 * Python floats produced here come from `float(<decimal string>)` followed
   by a division by 2 (exact in binary floating point), so they are modelled
   exactly by `ℚ`.
 * Python string truthiness (`if s:`) is `s ≠ ""`; list truthiness is
   `l ≠ []`; `None` is `Option.none`.
 * Regular expressions are modelled by explicit scanning functions that
   implement the concrete patterns appearing in the source
   (`\|\s*<literal>`, `\s+(\d+)\s*$`, `\s{2,}`, `/cover\d*/`, `\(.*\)`,
   `wproduct\.aspx\?ItemId=(.+)`, `^\s*(국내도서|외국도서)\s*>\s*`,
   `\s*>\s*`, `\xc2?\xa0`).  Python's `\s` is modelled by the six ASCII
   whitespace characters; the `\xc2?\xa0` substitution in `parse_tags`
   normalises non-breaking spaces before any `\s` pattern is used on the
   same string.
-/

/-! ## Basic Python-string utilities -/

/-- The characters matched by Python's `\s` (ASCII range) and stripped by
`str.strip()` for the inputs arising here. -/
def isPyWs (c : Char) : Bool :=
  c = ' ' || c = '\t' || c = '\n' || c = '\r' || c = '\x0b' || c = '\x0c'

/-- `str.strip()` on a character list. -/
def pyStripL (l : List Char) : List Char :=
  ((l.dropWhile isPyWs).reverse.dropWhile isPyWs).reverse

/-- `str.strip()`. -/
def pyStrip (s : String) : String :=
  String.mk (pyStripL s.toList)

/-- Decision procedure for "needle occurs as a substring", i.e. Python's
`needle in hay` on strings, over character lists. -/
def infixCheck (n : List Char) : List Char → Bool
  | [] => n.isEmpty
  | c :: cs => n.isPrefixOf (c :: cs) || infixCheck n cs

/-- Python's `needle in hay` for strings. -/
def hasSub (needle hay : String) : Bool :=
  infixCheck needle.toList hay.toList

/-- Python's `str.lower()` / calibre's `icu.lower` as used on the plain
ASCII tokens involved here. -/
def lowerStr (s : String) : String := s.toLower

/-- Numeric value of a decimal digit string (most significant first). -/
def digitsVal (ds : List Char) : Nat :=
  ds.foldl (fun a c => a * 10 + (c.toNat - 48)) 0

/-- Leading sign of a Python numeric literal: returns (negative?, rest). -/
def splitSign : List Char → Bool × List Char
  | '-' :: r => (true, r)
  | '+' :: r => (false, r)
  | r => (false, r)

/-- The syntactic decomposition of a Python decimal float literal:
sign, integer-part digits, fractional-part digits and an optional
exponent (`ed = []` when no exponent clause is present). -/
structure FloatRep where
  neg : Bool
  ip : List Char
  fp : List Char
  eneg : Bool
  ed : List Char
deriving Repr, DecidableEq

/-- Parse an already-stripped string against the decimal grammar accepted
by Python's `float`: `[sign] (digits [. digits*] | . digits+)
[(e|E) [sign] digits+]` (`inf`, `nan` and underscore separators are not
modelled; none occur in the scraped rating/length texts).  `none` when
`float()` raises. -/
def pyFloatRep (s : String) : Option FloatRep :=
  let (neg, r) := splitSign s.toList
  let ip := r.takeWhile Char.isDigit
  let r1 := r.dropWhile Char.isDigit
  let (hasDot, fp, r2) :=
    match r1 with
    | '.' :: t => (true, t.takeWhile Char.isDigit, t.dropWhile Char.isDigit)
    | _ => (false, [], r1)
  if ip = [] ∧ (¬ hasDot ∨ fp = []) then none
  else
    match r2 with
    | [] => some ⟨neg, ip, fp, false, []⟩
    | c :: t =>
      if c = 'e' ∨ c = 'E' then
        let (eneg, t1) := splitSign t
        let ed := t1.takeWhile Char.isDigit
        let t2 := t1.dropWhile Char.isDigit
        if ed = [] ∨ t2 ≠ [] then none
        else some ⟨neg, ip, fp, eneg, ed⟩
      else none

/-- The exact rational value of a parsed float literal. -/
def ratOfRep (r : FloatRep) : ℚ :=
  let mant : ℚ := (digitsVal r.ip : ℚ) + (digitsVal r.fp : ℚ) / (10 : ℚ) ^ r.fp.length
  let v : ℚ :=
    if r.ed = [] then mant
    else if r.eneg then mant / (10 : ℚ) ^ digitsVal r.ed
    else mant * (10 : ℚ) ^ digitsVal r.ed
  if r.neg then -v else v

/-- Python's `float(s)` on an already-stripped string, as an exact
rational. -/
def pyFloat (s : String) : Option ℚ :=
  (pyFloatRep s).map ratOfRep

/-- Python's `int(s)`: optional surrounding whitespace, optional sign,
decimal digits.  Returns `none` when `int()` raises. -/
def pyInt (s : String) : Option Int :=
  let l := pyStripL s.toList
  let (neg, r) := splitSign l
  if r ≠ [] ∧ r.all Char.isDigit then
    some (if neg then -(digitsVal r : Int) else (digitsVal r : Int))
  else none

/-! ## worker.py : Worker.parse_title_series -/

/-- Greedy match of `\s*<info>` against `s` (used after a `|` character);
returns the remainder after the matched text.  For the stripped, hence not
whitespace-initial, `series_info` strings fed to it this coincides with the
regex semantics of `\s*` followed by the literal text. -/
def tryWsInfo (info : List Char) (s : List Char) : Option (List Char) :=
  if info.isPrefixOf s then some (s.drop info.length)
  else
    match s with
    | c :: cs => if isPyWs c then tryWsInfo info cs else none
    | [] => none

/-- `re.sub(r'\|\s*' + series_info, "", title)`: remove every occurrence of
a `|`, optional whitespace and the literal series text.  Fuelled scanner;
the fuel is the length of the scanned string, which suffices because every
step consumes at least one character. -/
def stripAnnotL (info : List Char) : Nat → List Char → List Char
  | 0, s => s
  | _ + 1, [] => []
  | n + 1, c :: cs =>
    if c = '|' then
      match tryWsInfo info cs with
      | some rest => stripAnnotL info n rest
      | none => c :: stripAnnotL info n cs
    else c :: stripAnnotL info n cs

/-- String-level wrapper for `stripAnnotL`. -/
def stripAnnot (info : String) (s : String) : String :=
  String.mk (stripAnnotL info.toList s.toList.length s.toList)

/-- `re.search(r"\s+(\d+)\s*$", series_info)`: a trailing integer preceded
by whitespace (ignoring trailing whitespace).  Returns the series name with
the whole matched text removed (`series_info[:-len(match.group(0))]`) and
the numeric value of the digit group, or `none` when the regex does not
match. -/
def trailingIndex (s : List Char) : Option (List Char × Nat) :=
  let r := s.reverse
  let r1 := r.dropWhile isPyWs
  let ds := r1.takeWhile Char.isDigit
  let r2 := r1.dropWhile Char.isDigit
  match ds, r2 with
  | [], _ => none
  | _ :: _, c :: _ =>
    if isPyWs c then some ((r2.dropWhile isPyWs).reverse, digitsVal ds.reverse)
    else none
  | _ :: _, [] => none

/-- Input to `Worker.parse_title_series`: the heading node, when present,
carries the stripped-to-be text content of the `Ere_bo_title` anchor's
parent (`text`) and, when a `wseriesitem.aspx` link exists below it, that
link's text content (`seriesText`). -/
structure TitleNode where
  text : String
  seriesText : Option String
deriving Repr, DecidableEq

/-- `Worker.parse_title_series`.  Returns (title, series name, series
index); the series index is the exact value of the Python float. -/
def parse_title_series (node : Option TitleNode) :
    Option String × Option String × Option ℚ :=
  match node with
  | none => (none, none, none)
  | some n =>
    let titleText := pyStrip n.text
    match n.seriesText with
    | none => (some titleText, none, none)
    | some st =>
      let seriesInfo := pyStrip st
      let titleText2 := pyStrip (stripAnnot seriesInfo titleText)
      if seriesInfo ≠ "" then
        match trailingIndex seriesInfo.toList with
        | some (name, k) => (some titleText2, some (String.mk name), some (k : ℚ))
        | none => (some titleText2, some seriesInfo, some 0)
      else (some titleText2, none, none)

/-! ## worker.py : Worker.parse_authors -/

/-- One `<a ... href="...AuthorSearch=...">` node in the `tlist` author
region: `text` is the node's own `.text` (possibly absent) and `tail` the
text node following it (possibly absent). -/
structure AuthorNode where
  text : Option String
  tail : Option String
deriving Repr, DecidableEq

/-- `re.search(r"\(.*\)", s) is not None`: `s` contains a `(` with a `)`
somewhere after it. -/
def hasParenGroup (s : String) : Bool :=
  infixCheck [')'] ((s.toList.dropWhile (· ≠ '(')).drop 1)

/-- The author-accumulation loop of `Worker.parse_authors`.  `.error ()`
models an exception escaping the loop (`None.strip()` when a node has no
text, `re.search(..., None)` when a node has no tail and all authors are
requested). -/
def parseAuthorsLoop (getAll : Bool) : List String → List AuthorNode →
    Except Unit (List String)
  | acc, [] => .ok acc
  | acc, n :: ns =>
    match n.text with
    | none => .error ()
    | some t =>
      let a := pyStrip t
      let acc' := if a ≠ "" then acc ++ [a] else acc
      if getAll then
        match n.tail with
        | none => .error ()
        | some tl =>
          if hasParenGroup tl then .ok acc'
          else parseAuthorsLoop getAll acc' ns
      else parseAuthorsLoop getAll acc' ns

/-- `Worker.parse_authors`: returns `none` (Python `None`) when the author
region yields no nodes, otherwise the accumulated list.  Note that in the
source the early-exit on a `(...)` contribution annotation sits under
`if get_all_authors:`. -/
def parse_authors (getAll : Bool) (nodes : List AuthorNode) :
    Except Unit (Option (List String)) :=
  match nodes with
  | [] => .ok none
  | _ :: _ => (parseAuthorsLoop getAll [] nodes).map some

/-! ## worker.py : Worker.parse_rating -/

/-- `Worker.parse_rating` over the list of text nodes selected by the
rating XPath: the first text node that is non-empty after stripping is fed
to `float(...) / 2`; a non-numeric text there raises (`.error`); if no
non-empty text node exists the method falls through and returns `None`. -/
def parse_rating : List String → Except Unit (Option ℚ)
  | [] => .ok none
  | t :: ts =>
    let v := pyStrip t
    if v ≠ "" then
      match pyFloat v with
      | some q => .ok (some (q / 2))
      | none => .error ()
    else parse_rating ts

/-- The first rating text node that is non-empty after stripping. -/
def firstStripped : List String → Option String
  | [] => none
  | t :: ts =>
    let v := pyStrip t
    if v ≠ "" then some v else firstStripped ts

/-! ## worker.py : Worker.parse_cover -/

/-- `re.sub(r"/cover\d*/", "/cover/", s)`: fuelled left-to-right scanner;
scanning resumes after each replaced occurrence, as `re.sub` does. -/
def replCoverDigitsL : Nat → List Char → List Char
  | 0, s => s
  | _ + 1, [] => []
  | n + 1, c :: cs =>
    if ("/cover".toList).isPrefixOf (c :: cs) then
      let rest := (c :: cs).drop 6
      let rest2 := rest.dropWhile Char.isDigit
      match rest2 with
      | '/' :: tail => "/cover/".toList ++ replCoverDigitsL n tail
      | _ => c :: replCoverDigitsL n cs
    else c :: replCoverDigitsL n cs

/-- `re.sub` with a literal (metacharacter-free) pattern. -/
def replLitL (pat repl : List Char) : Nat → List Char → List Char
  | 0, s => s
  | _ + 1, [] => []
  | n + 1, c :: cs =>
    if pat ≠ [] ∧ pat.isPrefixOf (c :: cs) then
      repl ++ replLitL pat repl n ((c :: cs).drop pat.length)
    else c :: replLitL pat repl n cs

/-- The cover-URL transformation applied before the liveness probe:
`/cover<digits>/ → /cover/` when small covers are preferred, otherwise the
literal substitution `/cover/ → /cover500/`. -/
def coverTransform (smallCover : Bool) (u : String) : String :=
  if smallCover then String.mk (replCoverDigitsL u.toList.length u.toList)
  else String.mk (replLitL "/cover/".toList "/cover500/".toList u.toList.length u.toList)

/-- `Worker.parse_cover`.  `og` is the list of `og:image` meta contents;
`probe u` models `browser.open_novisit(u).info().get('Content-Length')`
(`.error ()` a network failure, `.ok none` a missing header).  The second
component records which URLs were probed.  A sentinel URL (containing
`noimg` or `img_no.jpg`) short-circuits before any probe; every failure of
the probe or of `int(...)` is swallowed by the `try/except` and yields an
absent cover. -/
def parse_cover (smallCover : Bool) (probe : String → Except Unit (Option String))
    (og : List String) : Option String × List String :=
  match og with
  | [] => (none, [])
  | u :: _ =>
    if hasSub "noimg" u || hasSub "img_no.jpg" u then (none, [])
    else
      let img := coverTransform smallCover u
      match probe img with
      | .error _ => (none, [img])
      | .ok none => (none, [img])
      | .ok (some h) =>
        match pyInt h with
        | none => (none, [img])
        | some len => if 1000 < len then (some img, [img]) else (none, [img])

/-! ## worker.py : Worker.parse_aladin_id -/

/-- The literal part of the pattern `wproduct\.aspx\?ItemId=(.+)`. -/
def itemIdPat : List Char := "wproduct.aspx?ItemId=".toList

/-- `re.search(r'wproduct\.aspx\?ItemId=(.+)', s)`: the text captured by
`(.+)` at the leftmost match, i.e. everything after the first occurrence of
the literal that is followed by at least one character. -/
def findItemId : List Char → Option (List Char)
  | [] => none
  | c :: cs =>
    if itemIdPat.isPrefixOf (c :: cs) ∧ (c :: cs).drop itemIdPat.length ≠ [] then
      some ((c :: cs).drop itemIdPat.length)
    else findItemId cs

/-- `Worker.parse_aladin_id`: match the pattern against the worker URL; on
failure fall back to the `og:url` meta content (`ogUrl`; `none` models a
missing meta tag, making the `[0]` index raise), where a failed match also
raises (`.group(1)` on `None`). -/
def parse_aladin_id (url : String) (ogUrl : Option String) : Except Unit String :=
  match findItemId url.toList with
  | some g => .ok (String.mk g)
  | none =>
    match ogUrl with
    | none => .error ()
    | some content =>
      match findItemId content.toList with
      | some g => .ok (String.mk g)
      | none => .error ()

/-! ## worker.py : Worker.parse_tags and genre conversion -/

/-- `re.sub(r"\xc2?\xa0", " ", s)`: replace a non-breaking space, possibly
preceded by a stray `Â`, with a plain space.  Fuelled scanner. -/
def nbspFixL : Nat → List Char → List Char
  | 0, s => s
  | _ + 1, [] => []
  | n + 1, c :: cs =>
    if c = '\xc2' then
      match cs with
      | d :: t => if d = '\xa0' then ' ' :: nbspFixL n t else c :: nbspFixL n cs
      | [] => [c]
    else if c = '\xa0' then ' ' :: nbspFixL n cs
    else c :: nbspFixL n cs

/-- `re.sub(r"^\s*(국내도서|외국도서)\s*>\s*", "", s)`: strip one leading
store-section label together with the following `>`. -/
def stripStoreSection (l : List Char) : List Char :=
  let t := l.dropWhile isPyWs
  let tryKw : List Char → Option (List Char) := fun kw =>
    if kw.isPrefixOf t then
      match (t.drop kw.length).dropWhile isPyWs with
      | '>' :: v => some (v.dropWhile isPyWs)
      | _ => none
    else none
  match tryKw "국내도서".toList with
  | some r => r
  | none =>
    match tryKw "외국도서".toList with
    | some r => r
    | none => l

/-- Plain split of a character list at every `>`. -/
def splitOnGt : List Char → List (List Char)
  | [] => [[]]
  | c :: cs =>
    if c = '>' then [] :: splitOnGt cs
    else
      match splitOnGt cs with
      | p :: ps => (c :: p) :: ps
      | [] => [[c]]

/-- `re.split(r"\s*>\s*", s)`: split at `>` and absorb the whitespace
adjacent to each separator (outer edges are untouched). -/
def splitGtTrim (l : List Char) : List (List Char) :=
  let pieces :=
    match splitOnGt l with
    | [] => []
    | p :: ps => p :: ps.map (List.dropWhile isPyWs)
  match pieces.reverse with
  | [] => []
  | q :: qs => ((q :: qs.map fun p => (p.reverse.dropWhile isPyWs).reverse).reverse)

/-- The per-item body of the category loop in `Worker.parse_tags`: the
`li` text content (after discarding the `접기` anchors), stripped, with
non-breaking spaces normalised, the leading store-section label removed,
the breadcrumb levels joined with `.` and the configured category tag
put in front when non-empty. -/
def processGenre (catPre : String) (txt : String) : String :=
  let g := pyStripL txt.toList
  let g := nbspFixL g.length g
  let g := stripStoreSection g
  let joined := String.intercalate "." ((splitGtTrim g).map String.mk)
  if catPre ≠ "" then catPre ++ joined else joined

/-- `Worker._convert_genres_to_calibre_tags`: look each genre up, in
lower case, in the genre→tags mapping (later duplicate lowered keys win,
as in the Python dict comprehension) and accumulate the mapped tags
without repetition. -/
def lowerKeyLookup (m : List (String × List String)) (k : String) :
    Option (List String) :=
  ((m.map fun p => (lowerStr p.1, p.2)).reverse.find? fun p => p.1 = lowerStr k).map (·.2)

/-- Inner accumulation of `_convert_genres_to_calibre_tags`. -/
def convertGenres (m : List (String × List String)) (genreTags : List String) :
    List String :=
  genreTags.foldl
    (fun acc g =>
      match lowerKeyLookup m g with
      | some tags =>
        if tags = [] then acc
        else tags.foldl (fun a t => if t ∈ a then a else a ++ [t]) acc
      | none => acc)
    []

/-- Configuration surface read by `Worker.parse_tags`. -/
structure TagsCfg where
  getCategory : Bool
  categoryPre : String
  convertTag : Bool
  genreMappings : List (String × List String)
deriving Repr

/-- The leaf-tag loop of `Worker.parse_tags` (the branch taken when
category-as-tags is disabled).  `tags[0]` on an empty conversion result
raises an `IndexError`, modelled by `.error ()`. -/
def tagsLoop (convert : Bool) (m : List (String × List String)) :
    List String → List String → Except Unit (List String)
  | acc, [] => .ok acc
  | acc, t :: ts =>
    let base := [pyStrip t]
    let tags := if convert then convertGenres m base else base
    match tags with
    | [] => .error ()
    | t0 :: _ =>
      if t0 ∈ acc then tagsLoop convert m acc ts
      else tagsLoop convert m (acc ++ tags) ts

/-- `Worker.parse_tags`.  `genreTexts` are the text contents of the
`ulCategory` list items (with the `접기` anchors already removed, as the
loop does first); `leafTexts` the text contents of the leaf category
anchors.  When category-as-tags is enabled the breadcrumb strings are
appended without any duplicate check and the leaf branch is skipped
entirely; otherwise the leaf loop runs on an empty accumulator. -/
def parse_tags (cfg : TagsCfg) (genreTexts leafTexts : List String) :
    Except Unit (List String) :=
  if cfg.getCategory then .ok (genreTexts.map (processGenre cfg.categoryPre))
  else tagsLoop cfg.convertTag cfg.genreMappings [] leafTexts

/-! ## worker.py : Worker.parse_details -/

/-- A publication date as produced by `_convert_date_text_hyphen`. -/
structure PyDate where
  year : Int
  month : Int
  day : Int
deriving Repr, DecidableEq

/-- The outcomes of the ten guarded extractor calls made by
`Worker.parse_details` on one detail page, each an `Except` mirroring the
`try`/`except` around the call.  The component types are the return types
of the corresponding `parse_*` embeddings above (for extractors whose
internals no claim touches, just their result shape). -/
structure ExtractOutcomes where
  aladinId : Except Unit String
  titleSeries : Except Unit (Option String × Option String × Option ℚ)
  authors : Except Unit (Option (List String))
  isbn : Except Unit (Option String)
  rating : Except Unit (Option ℚ)
  comments : Except Unit String
  cover : Except Unit (Option String)
  tags : Except Unit (List String)
  publisherDate : Except Unit (Option String × Option PyDate)
  language : Except Unit (Option String)

/-- The metadata record pushed onto the shared result queue. -/
structure MetadataRecord where
  title : String
  authors : List String
  series : Option (String × ℚ)
  aladinId : String
  isbn : Option String
  rating : Option ℚ
  comments : Option String
  hasCover : Bool
  coverUrl : Option String
  tags : List String
  publisher : Option String
  pubdate : Option PyDate
  language : Option String
  sourceRelevance : Nat

/-- `Worker.parse_details`: each extractor failure is caught locally and
the field defaulted; the record is built and pushed (modelled by `some`)
unless title, authors or the aladin id is missing, in which case nothing
is emitted (`none`).  The function is total: no exception reaches the
caller. -/
def parse_details (relevance : Nat) (o : ExtractOutcomes) : Option MetadataRecord :=
  let aladinId : Option String :=
    match o.aladinId with | .ok v => some v | .error _ => none
  let ts :=
    match o.titleSeries with | .ok v => v | .error _ => (none, none, none)
  let authorsOpt : Option (List String) :=
    match o.authors with | .ok v => v | .error _ => some []
  let titleOk := match ts.1 with | some t => t ≠ "" | none => false
  let authorsOk := match authorsOpt with | some l => l ≠ [] | none => false
  let idOk := match aladinId with | some a => a ≠ "" | none => false
  if titleOk && authorsOk && idOk then
    some
      { title := ts.1.getD ""
        authors := authorsOpt.getD []
        series :=
          match ts.2.1 with
          | some s => if s ≠ "" then some (s, (ts.2.2).getD 0) else none
          | none => none
        aladinId := aladinId.getD ""
        isbn :=
          match o.isbn with
          | .ok (some i) => if i ≠ "" then some i else none
          | _ => none
        rating := match o.rating with | .ok v => v | .error _ => none
        comments := match o.comments with | .ok c => some c | .error _ => none
        hasCover :=
          match o.cover with | .ok (some u) => u ≠ "" | _ => false
        coverUrl := match o.cover with | .ok v => v | .error _ => none
        tags := match o.tags with | .ok v => v | .error _ => []
        publisher := match o.publisherDate with | .ok pd => pd.1 | .error _ => none
        pubdate := match o.publisherDate with | .ok pd => pd.2 | .error _ => none
        language :=
          match o.language with
          | .ok (some l) => if l ≠ "" then some l else none
          | _ => none
        sourceRelevance := relevance }
  else none

/-! ## __init__.py : search-results parsing -/

/-- The deny-list declared in `_parse_search_isbn_results`. -/
def UNSUPPORTED_FORMATS_isbn : List String :=
  ["audiobook", "other format", "cd", "item", "see all formats & editions"]

/-- The deny-list declared in `_parse_search_results`. -/
def UNSUPPORTED_FORMATS_ta : List String :=
  ["[ebook]", "[알라딘굿즈]", "[커피]", "[음반]", "[dvd]", "[블루레이]"]

/-- `re.sub("\s{2,}", " ", s)`: collapse every maximal whitespace run of
length at least two into one space (a single whitespace character is kept
as it is). -/
def collapseWsL : Nat → List Char → List Char
  | 0, s => s
  | _ + 1, [] => []
  | n + 1, c :: cs =>
    if isPyWs c then
      match cs with
      | d :: _ =>
        if isPyWs d then ' ' :: collapseWsL n (cs.dropWhile isPyWs)
        else c :: collapseWsL n cs
      | [] => [c]
    else c :: collapseWsL n cs

/-- The title clean-up both search parsers start with:
`re.sub("\s{2,}", " ", text.strip())`. -/
def stripCollapse (s : String) : String :=
  let t := pyStripL s.toList
  String.mk (collapseWsL t.length t)

/-- `title.rpartition('(')[0].strip()` applied when `'(' in title`: drop
everything from the last `(` on and strip. -/
def parenStrip (s : String) : String :=
  if '(' ∈ s.toList then
    String.mk (pyStripL (((s.toList.reverse.dropWhile (· ≠ '(')).drop 1).reverse))
  else s

/-- Python string truthiness of an optional attribute value. -/
def otruthy : Option String → Bool
  | none => false
  | some s => s ≠ ""

/-- Insertion key `"[%d] %s"` of the ordered title→URL maps. -/
def mkKey (num : Nat) (title : String) : String :=
  "[" ++ toString num ++ "] " ++ title

/-- One `ss_book_box` block as read by `_parse_search_isbn_results`: the
`bo3` title anchors with `wproduct.aspx?ISBN=` links, as (text content,
href attribute) pairs. -/
structure IsbnBlock where
  titleNodes : List (String × Option String)
deriving Repr

/-- The block loop of `_parse_search_isbn_results`, accumulating the
ordered `"[rank] title" → url` map and breaking once `max_results` entries
are stored. -/
def isbnLoop (maxResults : Nat) : List IsbnBlock → Nat → List (String × String) →
    List (String × String)
  | [], _, m => m
  | b :: bs, num, m =>
    match b.titleNodes with
    | [] => isbnLoop maxResults bs num m
    | (txt, href) :: _ =>
      let title := stripCollapse txt
      if title = "" then isbnLoop maxResults bs num m
      else
        let title := parenStrip title
        if otruthy href then
          let m' := m ++ [(mkKey num title, href.getD "")]
          if maxResults ≤ m'.length then m'
          else isbnLoop maxResults bs (num + 1) m'
        else isbnLoop maxResults bs num m

/-- `Aladin_co_kr._parse_search_isbn_results` with an initially empty
`matches` list: the flattened URL list, capped at `max_results`. -/
def parse_search_isbn_results (maxResults : Nat) (blocks : List IsbnBlock) :
    List String :=
  ((isbnLoop maxResults blocks 1 []).map Prod.snd).take maxResults

/-- The `ismatch` predicate defined inside `_parse_search_results`. -/
def ismatch (titleTokens authorTokens : List String) (title : String)
    (authors : List String) : Bool :=
  let as_ := lowerStr (String.intercalate " " authors)
  let t := lowerStr title
  let m := titleTokens.isEmpty || titleTokens.any fun tok => hasSub (lowerStr tok) t
  let am := authorTokens.isEmpty || authorTokens.any fun a => hasSub (lowerStr a) as_
  m && am

/-- One `ss_book_box` block as read by `_parse_search_results`: text
contents of the parents of the `wproduct.aspx` anchors, text contents of
the `AuthorSearch` anchors, and the hrefs selected by the
`wproduct.aspx?` URL XPath. -/
structure TABlock where
  titleNodes : List String
  contributors : List String
  hrefs : List String
deriving Repr

/-- The block loop of `_parse_search_results`. -/
def taLoop (maxResults : Nat) (titleTokens authorTokens : List String) :
    List TABlock → Nat → List (String × String) → List (String × String)
  | [], _, m => m
  | b :: bs, num, m =>
    let title0 :=
      match b.titleNodes with
      | [] => ""
      | t :: _ => stripCollapse t
    if title0 = "" then taLoop maxResults titleTokens authorTokens bs num m
    else
      let title := parenStrip title0
      let authors := b.contributors.filterMap fun c =>
        if c ≠ "" then some (pyStrip c) else none
      if ¬ ismatch titleTokens authorTokens title authors then
        taLoop maxResults titleTokens authorTokens bs num m
      else
        match b.hrefs with
        | [] => taLoop maxResults titleTokens authorTokens bs num m
        | h :: _ =>
          let m' := m ++ [(mkKey num title, h)]
          if maxResults ≤ m'.length then m'
          else taLoop maxResults titleTokens authorTokens bs (num + 1) m'

/-- `Aladin_co_kr._parse_search_results` with an initially empty `matches`
list. -/
def parse_search_results (maxResults : Nat) (titleTokens authorTokens : List String)
    (blocks : List TABlock) : List String :=
  ((taLoop maxResults titleTokens authorTokens blocks 1 []).map Prod.snd).take maxResults

/-! ## __init__.py : Aladin_co_kr.identify -/

/-- The environment `identify` runs in: the `check_isbn` collaborator and
the combined fetch-and-parse of one search round (create_query, HTTP GET,
decode, parse, `_parse_search_results` / `_parse_search_isbn_results`).
The search takes the index of the attempt so that successive rounds may
observe different network responses; `.error` models an exception inside
the `try` (identify then returns early). -/
structure IdentifyEnv where
  checkIsbn : String → Option String
  search : Nat → Option String → List String → Except Unit (List String)

/-- How one `identify` call ended. -/
inductive IdOutcome
  | errored
  | noQuery
  | aborted
  | noMatches
  | spawned
deriving Repr, DecidableEq

/-- Observable behaviour of one `identify` call: the search rounds that
were fired (attempt index, title, authors), the detail URLs handed to
workers, and the exit path. -/
structure IdentifyRun where
  searches : List (Nat × Option String × List String)
  workers : List String
  outcome : IdOutcome
deriving Repr, DecidableEq

/-- `identifiers.get(k, None)` on the identifiers mapping. -/
def dictGet (d : List (String × String)) (k : String) : Option String :=
  (d.find? fun p => p.1 = k).map Prod.snd

/-- The direct detail URL used when a valid ISBN identifier is present. -/
def isbnSearchUrl (i : String) : String :=
  "http://www.aladin.co.kr/shop/wproduct.aspx?ISBN=" ++ i

/-- The direct detail URL used when an aladin.co.kr identifier is present. -/
def itemIdUrl (a : String) : String :=
  "http://www.aladin.co.kr/shop/wproduct.aspx?ItemId=" ++ a

/-- Result of the candidate-gathering phase of `identify`. -/
inductive PreMatches
  | early (r : IdentifyRun)
  | got (searches : List (Nat × Option String × List String)) (urls : List String)

/-- `Aladin_co_kr.identify`.  `k` counts the search rounds already fired
(0 at the top-level call).  The retry without identifiers is the literal
recursion of the source, bounded because the recursive call passes an
empty identifiers mapping. -/
def identify (env : IdentifyEnv) (abort : Bool) (title : Option String)
    (authors : List String) (identifiers : List (String × String)) (k : Nat) :
    IdentifyRun :=
  let isbn :=
    match dictGet identifiers "isbn" with
    | none => none
    | some s => env.checkIsbn s
  let aladinId := dictGet identifiers "aladin.co.kr"
  let pre : PreMatches :=
    match isbn with
    | some i => .got [] [isbnSearchUrl i]
    | none =>
      match aladinId with
      | some a => .got [] [itemIdUrl a]
      | none =>
        if otruthy title || ¬ authors.isEmpty then
          match env.search k title authors with
          | .ok ms => .got [(k, title, authors)] ms
          | .error _ => .early ⟨[(k, title, authors)], [], .errored⟩
        else .early ⟨[], [], .noQuery⟩
  match pre with
  | .early r => r
  | .got s urls =>
    if abort then ⟨s, [], .aborted⟩
    else if urls.isEmpty then
      if h : identifiers ≠ [] ∧ otruthy title = true ∧ authors ≠ [] then
        let r := identify env abort title authors [] (k + s.length)
        ⟨s ++ r.searches, r.workers, r.outcome⟩
      else ⟨s, [], .noMatches⟩
    else ⟨s, urls, .spawned⟩
termination_by identifiers.length
decreasing_by
  simp only [List.length_nil]
  exact List.length_pos.mpr h.1

/-- A concrete identify environment whose searches always succeed with an
empty candidate list (used to instantiate the retry theorem). -/
def envW0 : IdentifyEnv := ⟨fun _ => none, fun _ _ _ => .ok []⟩

/-! ## Helper lemmas -/

theorem isPrefixOf_spec (a : List Char) : ∀ b : List Char, a.isPrefixOf b = true ↔ a <+: b := by
  induction a with
  | nil =>
    intro b
    simp [List.isPrefixOf, List.nil_prefix]
  | cons x xs ih =>
    intro b
    cases b with
    | nil => simp [List.isPrefixOf]
    | cons y ys =>
      simp [List.isPrefixOf, Bool.and_eq_true, beq_iff_eq, List.cons_prefix_cons, ih]

theorem infixCheck_spec (n : List Char) : ∀ h : List Char, infixCheck n h = true ↔ n <:+: h := by
  intro h
  induction h with
  | nil =>
    simp [infixCheck, List.infix_nil, List.isEmpty_iff]
  | cons c cs ih =>
    rw [List.infix_cons_iff]
    simp [infixCheck, isPrefixOf_spec, ih]

/-! ## Claim theorems -/

/-- Claim C5: in the title/author search variant, a result block passes the
`ismatch` acceptance test if and only if (the title-token set is empty or
some title token is, case-insensitively, a substring of the candidate
title) and (the author-token set is empty or some author token is,
case-insensitively, a substring of the space-joined candidate author
text). -/
theorem ismatch_iff (titleTokens authorTokens : List String) (title : String)
    (authors : List String) :
    ismatch titleTokens authorTokens title authors = true ↔
      ((titleTokens = [] ∨
          ∃ tok ∈ titleTokens, (lowerStr tok).toList <:+: (lowerStr title).toList) ∧
       (authorTokens = [] ∨
          ∃ a ∈ authorTokens,
            (lowerStr a).toList <:+: (lowerStr (String.intercalate " " authors)).toList)) := by
  simp [ismatch, hasSub, infixCheck_spec, List.isEmpty_iff, List.any_eq_true,
    Bool.or_eq_true, Bool.and_eq_true]

/-- Claim C4 (refuting theorem): on an author region with two author links
whose tails carry `(역할)` contribution annotations, `parse_authors`
truncates after the first author exactly when all contributors are
requested (`get_all_authors = True`) and collects every author when only
primary authors are requested (`get_all_authors = False`) — the opposite
of the documented configuration semantics. -/
theorem parse_authors_truncation_inverted :
    parse_authors true [⟨some "폴 베리", some " (지은이), "⟩, ⟨some "강권학", some " (옮긴이)"⟩]
        = .ok (some ["폴 베리"]) ∧
    parse_authors false [⟨some "폴 베리", some " (지은이), "⟩, ⟨some "강권학", some " (옮긴이)"⟩]
        = .ok (some ["폴 베리", "강권학"]) := by
  exact ⟨rfl, rfl⟩

/-- Claim C6 (counterexample): `parse_title_series` does not remove the
trailing parenthetical from the title.  Both on the claim's literal input
(heading text "Head First Python (개정판)") and on the realistic heading
text that contains the series link text after a `|`, the returned title is
"Head First Python (개정판)", not "Head First Python"; series name and
index come out as claimed. -/
theorem parse_title_series_cex :
    parse_title_series (some ⟨"Head First Python (개정판)", some "Head First 시리즈 3"⟩)
        = (some "Head First Python (개정판)", some "Head First 시리즈", some 3) ∧
    parse_title_series
        (some ⟨"Head First Python (개정판) | Head First 시리즈 3", some "Head First 시리즈 3"⟩)
        = (some "Head First Python (개정판)", some "Head First 시리즈", some 3) ∧
    ("Head First Python (개정판)" : String) ≠ "Head First Python" := by
  exact ⟨rfl, rfl, by decide⟩

/-- Claim C9 (counterexample): with category-as-tags enabled, two identical
category breadcrumb lines are appended without any duplicate check, so the
tag list returned by `parse_tags` can contain duplicates. -/
theorem parse_tags_dup_cex :
    parse_tags ⟨true, "", false, []⟩ ["소설", "소설"] [] = .ok ["소설", "소설"] ∧
    ¬ (["소설", "소설"] : List String).Nodup := by
  exact ⟨rfl, by decide⟩

/-- Claim C2 (counterexample): both deny-lists are declared but never
consulted.  A title/author-search block labelled `[ebook]` and an
ISBN-search block titled `cd` — labels verbatim on the respective
deny-lists — both contribute their candidate URL. -/
theorem search_denylists_unused_cex :
    parse_search_results 5 [] [] [⟨["[ebook] 책"], [], ["u"]⟩] = ["u"] ∧
    "[ebook]" ∈ UNSUPPORTED_FORMATS_ta ∧
    parse_search_isbn_results 5 [⟨[("cd", some "u2")]⟩] = ["u2"] ∧
    "cd" ∈ UNSUPPORTED_FORMATS_isbn := by
  refine ⟨rfl, by decide, rfl, by decide⟩

/-- Claim C10 (counterexample): a worker URL that contains
`wproduct.aspx?ItemId=` with nothing after it does not short-circuit:
the document's `og:url` meta tag is consulted (and its id returned), and
with the meta tag absent the extraction raises, instead of the empty
remainder being returned without consulting the document. -/
theorem parse_aladin_id_cex :
    parse_aladin_id "http://www.aladin.co.kr/shop/wproduct.aspx?ItemId="
        (some "https://www.aladin.co.kr/shop/wproduct.aspx?ItemId=99") = .ok "99" ∧
    hasSub "wproduct.aspx?ItemId=" "http://www.aladin.co.kr/shop/wproduct.aspx?ItemId=" = true ∧
    parse_aladin_id "http://www.aladin.co.kr/shop/wproduct.aspx?ItemId=" none = .error () := by
  refine ⟨rfl, by decide, rfl⟩

/-- Claim C1: `parse_details` emits a record (pushes it onto the shared
result queue, modelled by `some`) exactly when the title extractor
succeeded with a non-empty title, the author extractor succeeded with a
non-empty list, and the aladin.co.kr identifier was resolved; the outcomes
of the seven other field extractors — including outright failures — are
universally quantified here, so a failure in any of them is absorbed and
never prevents emission nor escapes to the caller. -/
theorem parse_details_emission_iff (relevance : Nat) (o : ExtractOutcomes) :
    (parse_details relevance o).isSome = true ↔
      ((∃ t s i, o.titleSeries = .ok (some t, s, i) ∧ t ≠ "") ∧
       (∃ l, o.authors = .ok (some l) ∧ l ≠ []) ∧
       (∃ a, o.aladinId = .ok a ∧ a ≠ "")) := by
  obtain ⟨aid, ts, au, i1, r1, cm, cv, tg, pd, lg⟩ := o
  simp only [parse_details]
  cases aid with
  | error e =>
    cases ts with
    | error e2 => simp
    | ok v =>
      obtain ⟨tso, tss, tsi⟩ := v
      cases tso <;> cases au <;> simp
  | ok a =>
    cases ts with
    | error e2 => simp
    | ok v =>
      obtain ⟨tso, tss, tsi⟩ := v
      cases tso with
      | none => cases au <;> simp
      | some t =>
        cases au with
        | error e3 => simp
        | ok lo =>
          cases lo with
          | none => simp
          | some l =>
            by_cases ht : t = "" <;> by_cases hl : l = [] <;> by_cases ha : a = "" <;>
              simp [ht, hl, ha]

theorem parse_rating_eq (texts : List String) :
    parse_rating texts =
      match firstStripped texts with
      | none => .ok none
      | some v =>
        match pyFloat v with
        | some q => .ok (some (q / 2))
        | none => .error () := by
  induction texts with
  | nil => rfl
  | cons t ts ih =>
    simp only [parse_rating, firstStripped]
    by_cases hv : pyStrip t = "" <;> simp [hv, ih]

/-- Claim C7: `parse_rating` divides the numeric value of the first
non-empty rating text node by two — "8.7" yields 4.35 and "0" yields a
present rating 0.0, not an absent one; when no non-empty text node exists
it returns an absent rating, and when the first non-empty text node is not
numeric the call raises (which the caller catches, leaving the rating
absent). -/
theorem parse_rating_spec :
    (parse_rating ["8.7"] = .ok (some (4.35 : ℚ)) ∧
     parse_rating ["0"] = .ok (some (0 : ℚ)) ∧
     (some (0 : ℚ) : Option ℚ) ≠ none) ∧
    (∀ texts s q, firstStripped texts = some s → pyFloat s = some q →
        parse_rating texts = .ok (some (q / 2))) ∧
    (∀ texts, firstStripped texts = none → parse_rating texts = .ok none) ∧
    (∀ texts s, firstStripped texts = some s → pyFloat s = none →
        parse_rating texts = .error ()) := by
  have hd8 : digitsVal ['8'] = 8 := by decide
  have hd7 : digitsVal ['7'] = 7 := by decide
  have hd0 : digitsVal ['0'] = 0 := by decide
  have hdnil : digitsVal [] = 0 := by decide
  have hr87 : pyFloatRep "8.7" = some ⟨false, ['8'], ['7'], false, []⟩ := by decide
  have hr0 : pyFloatRep "0" = some ⟨false, ['0'], [], false, []⟩ := by decide
  have hf87 : firstStripped ["8.7"] = some "8.7" := by decide
  have hf0 : firstStripped ["0"] = some "0" := by decide
  refine ⟨⟨?_, ?_, by decide⟩, ?_, ?_, ?_⟩
  · rw [parse_rating_eq, hf87]
    simp only [pyFloat, hr87, Option.map_some', Except.ok.injEq, Option.some.injEq]
    norm_num [ratOfRep, hd8, hd7]
  · rw [parse_rating_eq, hf0]
    simp only [pyFloat, hr0, Option.map_some', Except.ok.injEq, Option.some.injEq]
    norm_num [ratOfRep, hd0, hdnil]
  · intro texts s q hf hq
    simp [parse_rating_eq, hf, hq]
  · intro texts hf
    simp [parse_rating_eq, hf]
  · intro texts s hf hq
    simp [parse_rating_eq, hf, hq]

/-- Witness for `parse_rating_spec`: concrete rating node lists exercising
the numeric, the non-numeric and the all-empty hypotheses. -/
theorem parse_rating_spec_witness :
    parse_rating ["", " 8.7 "] = .ok (some (ratOfRep ⟨false, ['8'], ['7'], false, []⟩ / 2)) ∧
    parse_rating ["x"] = .error () ∧
    parse_rating [" "] = .ok none :=
  ⟨parse_rating_spec.2.1 ["", " 8.7 "] "8.7" (ratOfRep ⟨false, ['8'], ['7'], false, []⟩)
      (by decide)
      (by
        simp only [pyFloat]
        rw [show pyFloatRep "8.7" = some ⟨false, ['8'], ['7'], false, []⟩ by decide]
        rfl),
   parse_rating_spec.2.2.2 ["x"] "x" (by decide)
      (by
        simp only [pyFloat]
        rw [show pyFloatRep "x" = none by decide]
        rfl),
   parse_rating_spec.2.2.1 [" "] (by decide)⟩

/-- Claim C8: a sentinel `og:image` URL (containing `noimg` or
`img_no.jpg`) makes `parse_cover` return an absent cover with no liveness
probe; otherwise exactly the transformed URL is probed and it is accepted
precisely when the probe succeeds with a Content-Length header parsing to
an integer above 1000 — any probe failure yields an absent cover instead of
a failed worker. -/
theorem parse_cover_spec (small : Bool) (probe : String → Except Unit (Option String))
    (u : String) (rest : List String) :
    ((hasSub "noimg" u || hasSub "img_no.jpg" u) = true →
        parse_cover small probe (u :: rest) = (none, [])) ∧
    ((hasSub "noimg" u || hasSub "img_no.jpg" u) = false →
        (parse_cover small probe (u :: rest)).2 = [coverTransform small u] ∧
        ((parse_cover small probe (u :: rest)).1 = some (coverTransform small u) ↔
          ∃ h n, probe (coverTransform small u) = .ok (some h) ∧
            pyInt h = some n ∧ 1000 < n) ∧
        ((parse_cover small probe (u :: rest)).1 = some (coverTransform small u) ∨
         (parse_cover small probe (u :: rest)).1 = none)) := by
  constructor
  · intro hc
    simp [parse_cover, hc]
  · intro hc
    simp only [parse_cover, hc, Bool.false_eq_true, if_false]
    cases hp : probe (coverTransform small u) with
    | error e => simp [hp]
    | ok hdr =>
      cases hdr with
      | none => simp [hp]
      | some h =>
        cases hn : pyInt h with
        | none => simp [hp, hn]
        | some n =>
          by_cases h1 : 1000 < n <;> simp [hp, hn, h1]

/-- Witness for `parse_cover_spec`: the real no-image sentinel URL is
rejected without a probe, and a live URL whose probe reports 2000 bytes is
accepted. -/
theorem parse_cover_spec_witness :
    parse_cover false (fun _ => Except.error ())
        ["https://image.aladin.co.kr/img/shop/2018/img_no.jpg"] = (none, []) ∧
    (parse_cover false (fun _ => Except.ok (some "2000"))
        ["http://a/cover/b_1.jpg"]).1 = some (coverTransform false "http://a/cover/b_1.jpg") :=
  ⟨(parse_cover_spec false (fun _ => Except.error ())
      "https://image.aladin.co.kr/img/shop/2018/img_no.jpg" []).1 (by decide),
   ((parse_cover_spec false (fun _ => Except.ok (some "2000"))
      "http://a/cover/b_1.jpg" []).2 (by decide)).2.1.mpr
     ⟨"2000", 2000, rfl, by decide, by decide⟩⟩

/-- Claim C2 (amended): neither search-results variant ever consults its
declared deny-list — a result block whose format/category label is on the
deny-list still contributes its candidate URL whenever it satisfies the
variant's other acceptance conditions. -/
theorem search_denylists_never_consulted :
    (∀ lbl ∈ UNSUPPORTED_FORMATS_ta,
        parse_search_results 5 [] [] [⟨[lbl ++ " 책"], [], ["u"]⟩] = ["u"]) ∧
    (∀ lbl ∈ UNSUPPORTED_FORMATS_isbn,
        parse_search_isbn_results 5 [⟨[(lbl, some "u2")]⟩] = ["u2"]) := by
  constructor
  · intro lbl h
    fin_cases h <;> decide
  · intro lbl h
    fin_cases h <;> decide

/-- Witness for `search_denylists_never_consulted` at the labels
`[ebook]` (title/author variant) and `cd` (ISBN variant). -/
theorem search_denylists_never_consulted_witness :
    parse_search_results 5 [] [] [⟨["[ebook]" ++ " 책"], [], ["u"]⟩] = ["u"] ∧
    parse_search_isbn_results 5 [⟨[("cd", some "u2")]⟩] = ["u2"] :=
  ⟨search_denylists_never_consulted.1 "[ebook]" (by decide),
   search_denylists_never_consulted.2 "cd" (by decide)⟩

theorem tagsLoop_noconvert_nodup (m : List (String × List String)) :
    ∀ (ts acc : List String), acc.Nodup →
      ∃ r, tagsLoop false m acc ts = .ok r ∧ r.Nodup := by
  intro ts
  induction ts with
  | nil => exact fun acc h => ⟨acc, rfl, h⟩
  | cons t ts ih =>
    intro acc h
    simp only [tagsLoop, Bool.false_eq_true, if_false]
    by_cases hm : pyStrip t ∈ acc
    · simp only [hm, if_true]
      exact ih acc h
    · simp only [hm, if_false]
      apply ih
      simp [List.nodup_append, h, hm]

/-- Claim C9 (amended): with category-as-tags disabled and genre remapping
disabled, `parse_tags` succeeds and returns a tag list without duplicates
(the membership check before each `extend` is the deduplication); when
category-as-tags is enabled — or a genre remaps to several tags — the
returned list can contain duplicates. -/
theorem parse_tags_nodup_amended (catPre : String) (m : List (String × List String))
    (genreTexts leafTexts : List String) :
    ∃ r, parse_tags ⟨false, catPre, false, m⟩ genreTexts leafTexts = .ok r ∧ r.Nodup := by
  simp only [parse_tags, Bool.false_eq_true, if_false]
  exact tagsLoop_noconvert_nodup m leafTexts [] (by simp)

theorem digit_not_ws (c : Char) (h : c.isDigit = true) : isPyWs c = false := by
  by_contra hc
  rw [Bool.not_eq_false] at hc
  simp only [isPyWs, Bool.or_eq_true, decide_eq_true_eq] at hc
  rcases hc with ((((rfl | rfl) | rfl) | rfl) | rfl) | rfl <;> exact absurd h (by decide)

theorem dropWhile_head_false (p : Char → Bool) (l : List Char)
    (h : ∀ c, l.head? = some c → p c = false) : l.dropWhile p = l := by
  cases l with
  | nil => rfl
  | cons x xs => simp [List.dropWhile_cons, h x rfl]

theorem takeWhile_head_false (p : Char → Bool) (l : List Char)
    (h : ∀ c, l.head? = some c → p c = false) : l.takeWhile p = [] := by
  cases l with
  | nil => rfl
  | cons x xs => simp [List.takeWhile_cons, h x rfl]

theorem head_dropWhile_false (p : Char → Bool) :
    ∀ l : List Char, ∀ c, (l.dropWhile p).head? = some c → p c = false := by
  intro l
  induction l with
  | nil => intro c h; simp at h
  | cons x xs ih =>
    intro c h
    by_cases hx : p x
    · rw [List.dropWhile_cons, if_pos hx] at h
      exact ih c h
    · rw [List.dropWhile_cons, if_neg hx] at h
      rw [List.head?_cons, Option.some.injEq] at h
      subst h
      exact Bool.eq_false_iff.mpr hx

theorem takeWhile_append_cons (p : Char → Bool) (a : List Char) (d : Char) (t : List Char)
    (ha : ∀ c ∈ a, p c = true) (hd : p d = false) :
    (a ++ d :: t).takeWhile p = a := by
  induction a with
  | nil => simp [List.takeWhile_cons, hd]
  | cons x xs ih =>
    have hx : p x = true := ha x (by simp)
    simp only [List.cons_append, List.takeWhile_cons, hx, if_true]
    rw [ih fun c hc => ha c (by simp [hc])]

theorem dropWhile_append_cons (p : Char → Bool) (a : List Char) (d : Char) (t : List Char)
    (ha : ∀ c ∈ a, p c = true) (hd : p d = false) :
    (a ++ d :: t).dropWhile p = d :: t := by
  induction a with
  | nil => simp [List.dropWhile_cons, hd]
  | cons x xs ih =>
    have hx : p x = true := ha x (by simp)
    simp only [List.cons_append, List.dropWhile_cons, hx, if_true]
    exact ih fun c hc => ha c (by simp [hc])

theorem toList_mk (l : List Char) : (String.mk l).toList = l := rfl

theorem pyStrip_mk (l : List Char) : pyStrip (String.mk l) = String.mk (pyStripL l) := rfl

theorem stringMk_ne_empty (c : Char) (cs : List Char) : String.mk (c :: cs) ≠ "" := by
  intro h
  exact absurd (congrArg String.data h) (by simp)

theorem parse_title_series_some_some (txt st : String) :
    parse_title_series (some ⟨txt, some st⟩) =
      (let seriesInfo := pyStrip st
       let t2 := pyStrip (stripAnnot seriesInfo (pyStrip txt))
       if seriesInfo ≠ "" then
         match trailingIndex seriesInfo.toList with
         | some (name, k) => (some t2, some (String.mk name), some (k : ℚ))
         | none => (some t2, some seriesInfo, some 0)
       else (some t2, none, none)) := rfl

/-- Claim C6 (amended): on the Head First Python heading the returned
title keeps the trailing parenthetical — it is
"Head First Python (개정판)", with only the `| <series text>` annotation
removed — while series name "Head First 시리즈" and index 3.0 are as
claimed.  In general a trailing integer preceded by whitespace in the
series text becomes the series index, with that suffix removed from the
series name, and the index defaults to 0.0 when the series text does not
end (modulo trailing whitespace) in such digits. -/
theorem parse_title_series_amended :
    (parse_title_series (some ⟨"Head First Python (개정판) | Head First 시리즈 3",
        some "Head First 시리즈 3"⟩)
      = (some "Head First Python (개정판)", some "Head First 시리즈", some 3)) ∧
    (∀ (txt : String) (nl ds : List Char),
        nl ≠ [] → ds ≠ [] → ds.all Char.isDigit = true →
        Option.all (fun c => !isPyWs c) nl.head? = true →
        Option.all (fun c => !isPyWs c) nl.getLast? = true →
        (parse_title_series (some ⟨txt, some (String.mk (nl ++ ' ' :: ds))⟩)).2
          = (some (String.mk nl), some (digitsVal ds : ℚ))) ∧
    (∀ (txt st : String),
        pyStrip st ≠ "" →
        Option.all (fun c => !c.isDigit) (pyStrip st).toList.getLast? = true →
        (parse_title_series (some ⟨txt, some st⟩)).2 = (some (pyStrip st), some 0)) := by
  refine ⟨rfl, ?_, ?_⟩
  · intro txt nl ds hnl hds hdig hh hl
    obtain ⟨x, nl2, rfl⟩ := List.exists_cons_of_ne_nil hnl
    have hx : isPyWs x = false := by
      rw [List.head?_cons] at hh
      simpa using hh
    have hlast : ∀ c, (x :: nl2).getLast? = some c → isPyWs c = false := by
      intro c hc
      rw [hc] at hl
      simpa using hl
    have hdsall : ∀ c ∈ ds, c.isDigit = true := fun c hc => List.all_eq_true.mp hdig c hc
    have hrev : ((x :: nl2) ++ ' ' :: ds).reverse = ds.reverse ++ ' ' :: (x :: nl2).reverse := by
      simp
    obtain ⟨e, rest, hdr⟩ : ∃ e rest, ds.reverse = e :: rest := by
      cases hr : ds.reverse with
      | nil => exact absurd (by simpa using congrArg List.reverse hr) hds
      | cons e rest => exact ⟨e, rest, rfl⟩
    have he : isPyWs e = false := by
      apply digit_not_ws
      apply hdsall
      apply List.mem_reverse.mp
      rw [hdr]
      exact List.mem_cons_self e rest
    have e1 : (ds.reverse ++ ' ' :: (x :: nl2).reverse).dropWhile isPyWs
        = ds.reverse ++ ' ' :: (x :: nl2).reverse := by
      apply dropWhile_head_false
      intro c hc
      rw [hdr, List.cons_append, List.head?_cons, Option.some.injEq] at hc
      subst hc
      exact he
    have e2 : (ds.reverse ++ ' ' :: (x :: nl2).reverse).takeWhile Char.isDigit = ds.reverse :=
      takeWhile_append_cons _ _ _ _ (fun c hc => hdsall c (List.mem_reverse.mp hc)) (by decide)
    have e3 : (ds.reverse ++ ' ' :: (x :: nl2).reverse).dropWhile Char.isDigit
        = ' ' :: (x :: nl2).reverse :=
      dropWhile_append_cons _ _ _ _ (fun c hc => hdsall c (List.mem_reverse.mp hc)) (by decide)
    have e4 : (' ' :: (x :: nl2).reverse).dropWhile isPyWs = (x :: nl2).reverse := by
      rw [List.dropWhile_cons, if_pos (by decide)]
      apply dropWhile_head_false
      intro c hc
      rw [List.head?_reverse] at hc
      exact hlast c hc
    have hds_eq : (e :: rest).reverse = ds := by
      rw [← hdr, List.reverse_reverse]
    have hstrip : pyStripL ((x :: nl2) ++ ' ' :: ds) = (x :: nl2) ++ ' ' :: ds := by
      unfold pyStripL
      rw [List.cons_append, List.dropWhile_cons, if_neg (by simp [hx]), ← List.cons_append]
      rw [hrev, e1, ← hrev, List.reverse_reverse]
    have htrail : trailingIndex ((x :: nl2) ++ ' ' :: ds)
        = some ((x :: nl2), digitsVal ds) := by
      simp only [trailingIndex, hrev, e1, e2, e3]
      simp only [hdr]
      rw [if_pos (by decide), e4, List.reverse_reverse, hds_eq]
    rw [parse_title_series_some_some]
    simp only [pyStrip_mk, hstrip, toList_mk, htrail]
    rw [if_pos (by rw [List.cons_append]; exact stringMk_ne_empty _ _)]
  · intro txt st hne hlast
    have hrevdrop : (pyStrip st).toList.reverse.dropWhile isPyWs
        = (pyStrip st).toList.reverse := by
      have hs : (pyStrip st).toList.reverse
          = ((st.toList.dropWhile isPyWs).reverse).dropWhile isPyWs := by
        simp [pyStrip, toList_mk, pyStripL]
      rw [hs]
      exact dropWhile_head_false _ _ (fun c hc => head_dropWhile_false _ _ c hc)
    have hds : (pyStrip st).toList.reverse.takeWhile Char.isDigit = [] := by
      apply takeWhile_head_false
      intro c hc
      rw [List.head?_reverse] at hc
      rw [hc] at hlast
      simpa using hlast
    have htrail : trailingIndex (pyStrip st).toList = none := by
      simp only [trailingIndex, hrevdrop, hds]
    rw [parse_title_series_some_some]
    simp only [htrail]
    rw [if_pos hne]

/-- Witness for `parse_title_series_amended`: the series text
"역사 인물 찾기 10" yields series name "역사 인물 찾기" with index 10, and
the digit-free series text "잭 리처 시리즈" yields itself with index 0. -/
theorem parse_title_series_amended_witness :
    (parse_title_series (some ⟨"체 게바라 평전",
        some (String.mk ("역사 인물 찾기".toList ++ ' ' :: "10".toList))⟩)).2
      = (some (String.mk "역사 인물 찾기".toList), some (digitsVal "10".toList : ℚ)) ∧
    (parse_title_series (some ⟨"61시간", some "잭 리처 시리즈"⟩)).2
      = (some (pyStrip "잭 리처 시리즈"), some 0) :=
  ⟨parse_title_series_amended.2.1 "체 게바라 평전" "역사 인물 찾기".toList "10".toList
      (by decide) (by decide) (by decide) (by decide) (by decide),
   parse_title_series_amended.2.2 "61시간" "잭 리처 시리즈" (by decide) (by decide)⟩

theorem findItemId_found :
    ∀ (l a b : List Char), l = a ++ itemIdPat ++ b → b ≠ [] →
      ∃ a2 b2, findItemId l = some b2 ∧ l = a2 ++ itemIdPat ++ b2 ∧ b.length ≤ b2.length := by
  intro l
  induction l with
  | nil =>
    intro a b h hb
    have hlen := congrArg List.length h
    rw [List.length_append, List.length_append] at hlen
    have hp : itemIdPat.length = 21 := by decide
    simp only [List.length_nil] at hlen
    omega
  | cons c cs ih =>
    intro a b h hb
    by_cases hpre : itemIdPat.isPrefixOf (c :: cs) = true ∧ (c :: cs).drop itemIdPat.length ≠ []
    · obtain ⟨t, ht⟩ := (isPrefixOf_spec _ _).mp hpre.1
      have hdrop : (c :: cs).drop itemIdPat.length = t := by
        rw [← ht, List.drop_left]
      refine ⟨[], (c :: cs).drop itemIdPat.length, ?_, ?_, ?_⟩
      · simp only [findItemId]
        rw [if_pos hpre]
      · rw [hdrop, List.nil_append, ht]
      · have hlen := congrArg List.length h
        rw [List.length_append, List.length_append] at hlen
        rw [hdrop]
        have hlent := congrArg List.length ht
        rw [List.length_append] at hlent
        omega
    · have ha : a ≠ [] := by
        rintro rfl
        rw [List.nil_append] at h
        apply hpre
        constructor
        · exact (isPrefixOf_spec _ _).mpr ⟨b, h.symm⟩
        · rw [h, List.drop_left]
          exact hb
      obtain ⟨x, a2, rfl⟩ := List.exists_cons_of_ne_nil ha
      rw [List.cons_append, List.cons_append] at h
      injection h with hcx hcs
      obtain ⟨a3, b3, hf, hdecomp, hlen⟩ := ih a2 b hcs hb
      refine ⟨c :: a3, b3, ?_, ?_, hlen⟩
      · simp only [findItemId]
        rw [if_neg hpre]
        exact hf
      · rw [List.cons_append, List.cons_append, ← hdecomp]

theorem findItemId_none :
    ∀ l : List Char, (∀ a b, l = a ++ itemIdPat ++ b → b = []) → findItemId l = none := by
  intro l
  induction l with
  | nil => intro _; rfl
  | cons c cs ih =>
    intro h
    have hpre : ¬ (itemIdPat.isPrefixOf (c :: cs) = true ∧
        (c :: cs).drop itemIdPat.length ≠ []) := by
      rintro ⟨h1, h2⟩
      obtain ⟨t, ht⟩ := (isPrefixOf_spec _ _).mp h1
      have hdrop : (c :: cs).drop itemIdPat.length = t := by
        rw [← ht, List.drop_left]
      have : t = [] := h [] t (by rw [List.nil_append, ht])
      exact h2 (by rw [hdrop, this])
    simp only [findItemId]
    rw [if_neg hpre]
    apply ih
    intro a b hab
    exact h (c :: a) b (by rw [List.cons_append, List.cons_append, hab])

/-- Claim C10 (amended): whenever the worker URL contains
`wproduct.aspx?ItemId=` followed by at least one character,
`parse_aladin_id` succeeds without consulting the document (the result is
independent of the `og:url` meta) and returns the entire remainder of the
URL after the first such occurrence — formally, a remainder at least as
long as that of any given occurrence, so `&`-separated parameters are
included; when the URL lacks such an occurrence and the `og:url` meta tag
is absent, the extraction raises. -/
theorem parse_aladin_id_amended :
    (∀ (url : String) (og : Option String) (a b : List Char),
        url.toList = a ++ itemIdPat ++ b → b ≠ [] →
        parse_aladin_id url og = parse_aladin_id url none ∧
        ∃ a2 b2, parse_aladin_id url og = .ok (String.mk b2) ∧
          url.toList = a2 ++ itemIdPat ++ b2 ∧ b.length ≤ b2.length) ∧
    (∀ url : String,
        (∀ a b, url.toList = a ++ itemIdPat ++ b → b = []) →
        parse_aladin_id url none = .error ()) ∧
    (parse_aladin_id "http://www.aladin.co.kr/shop/wproduct.aspx?ItemId=123&sort=1" none
      = .ok "123&sort=1") := by
  refine ⟨?_, ?_, rfl⟩
  · intro url og a b hab hb
    obtain ⟨a2, b2, hf, hd, hl⟩ := findItemId_found url.toList a b hab hb
    have hf2 : findItemId url.data = some b2 := hf
    exact ⟨by simp [parse_aladin_id, hf2], a2, b2, by simp [parse_aladin_id, hf2], hd, hl⟩
  · intro url h
    have h2 : findItemId url.data = none := findItemId_none url.toList h
    simp [parse_aladin_id, h2]

/-- Witness for `parse_aladin_id_amended`: a URL with trailing query
parameters after the item id, and a URL without the pattern and no
`og:url` meta. -/
theorem parse_aladin_id_amended_witness :
    (parse_aladin_id "x/wproduct.aspx?ItemId=77&z=1" (some "y")
        = parse_aladin_id "x/wproduct.aspx?ItemId=77&z=1" none ∧
     ∃ a2 b2, parse_aladin_id "x/wproduct.aspx?ItemId=77&z=1" (some "y")
          = .ok (String.mk b2) ∧
        "x/wproduct.aspx?ItemId=77&z=1".toList = a2 ++ itemIdPat ++ b2 ∧
        ("77&z=1".toList).length ≤ b2.length) ∧
    parse_aladin_id "abc" none = .error () :=
  ⟨parse_aladin_id_amended.1 "x/wproduct.aspx?ItemId=77&z=1" (some "y")
      "x/".toList "77&z=1".toList (by decide) (by decide),
   parse_aladin_id_amended.2.1 "abc" fun a b h => by
      have hlen := congrArg List.length h
      rw [List.length_append, List.length_append] at hlen
      have hp : itemIdPat.length = 21 := by decide
      have h3 : ("abc".toList).length = 3 := by decide
      rw [hp, h3] at hlen
      exact List.eq_nil_of_length_eq_zero (by omega)⟩

theorem identify_no_ids (env : IdentifyEnv) (title : Option String) (authors : List String)
    (k : Nat) (hT : otruthy title = true) :
    identify env false title authors [] k =
      match env.search k title authors with
      | .error _ => ⟨[(k, title, authors)], [], .errored⟩
      | .ok ms =>
        if ms.isEmpty then ⟨[(k, title, authors)], [], .noMatches⟩
        else ⟨[(k, title, authors)], ms, .spawned⟩ := by
  unfold identify
  simp only [dictGet, List.find?_nil, Option.map_none', hT, Bool.true_or, if_true]
  cases hs : env.search k title authors with
  | error e => simp
  | ok ms =>
    by_cases hm : ms.isEmpty <;> simp [hm]

/-- Claim C3: when the identifiers mapping is non-empty but resolves to
neither a valid ISBN nor an aladin id, title and authors are both present,
and the first search round yields zero candidate URLs, `identify` retries
exactly once — two search rounds in total, the second with the identifiers
omitted — and never a third time; if the retry also yields zero candidates
the call ends in the no-matches state with no workers spawned (nothing is
ever put on the result queue), while a successful retry hands exactly its
matches to the workers. -/
theorem identify_retry_once (env : IdentifyEnv) (title : Option String)
    (authors : List String) (identifiers : List (String × String))
    (hI : identifiers ≠ []) (hT : otruthy title = true) (hA : authors ≠ [])
    (hIsbn : (match dictGet identifiers "isbn" with
              | none => none
              | some s => env.checkIsbn s) = (none : Option String))
    (hAid : dictGet identifiers "aladin.co.kr" = none)
    (hS : env.search 0 title authors = .ok []) :
    (identify env false title authors identifiers 0).searches
        = [(0, title, authors), (1, title, authors)] ∧
    (env.search 1 title authors = .ok [] →
        identify env false title authors identifiers 0
          = ⟨[(0, title, authors), (1, title, authors)], [], .noMatches⟩) ∧
    (∀ ms, env.search 1 title authors = .ok ms → ms ≠ [] →
        (identify env false title authors identifiers 0).workers = ms ∧
        (identify env false title authors identifiers 0).outcome = .spawned) := by
  have houter : identify env false title authors identifiers 0 =
      ⟨(0, title, authors) :: (identify env false title authors [] 1).searches,
       (identify env false title authors [] 1).workers,
       (identify env false title authors [] 1).outcome⟩ := by
    conv_lhs => rw [identify]
    simp only [hIsbn, hAid, hT, Bool.true_or, if_true, hS]
    rw [dif_pos ⟨hI, by simp [hT], hA⟩]
    simp
  have hinner := identify_no_ids env title authors 1 hT
  refine ⟨?_, ?_, ?_⟩
  · rw [houter, hinner]
    cases hs1 : env.search 1 title authors with
    | error e => simp
    | ok ms => by_cases hm : ms.isEmpty <;> simp [hm]
  · intro h1
    rw [houter, hinner, h1]
    simp
  · intro ms h1 hm
    rw [houter, hinner, h1]
    constructor <;> simp [List.isEmpty_iff, hm]

/-- Witness for `identify_retry_once`: an identifiers mapping whose sole
key is an invalid ISBN and an environment whose searches always return no
candidates — the run fires exactly two search rounds and ends with no
matches and no workers. -/
theorem identify_retry_once_witness :
    identify envW0 false (some "t") ["a"] [("isbn", "zz")] 0
      = ⟨[(0, some "t", ["a"]), (1, some "t", ["a"])], [], .noMatches⟩ :=
  (identify_retry_once envW0 (some "t") ["a"] [("isbn", "zz")]
      (by decide) (by decide) (by decide) rfl rfl rfl).2.1 rfl
